import Mathlib

/-!
Shallow embedding of `automoss/apps/jobs/tasks.py` (`process_job`): the
attempt/retry control loop that drives one similarity-comparison job against
the external MOSS service, records every transition as a `JobEvent`, and
materializes the parsed result into match records.

External collaborators (the MOSS client `MOSS.generate_url` /
`MOSS.generate_report`, the load prober `Pinger.determine_load`, the
filesystem listing, and the Django ORM) are modelled as oracles supplied in
an `Env` value: each attempt's observable behaviour of the remote service is
a field of `AttemptBehavior`, the directory layout is an association list,
and persistence is explicit state (`RunState.saved` is the last snapshot the
job row was saved with, `RunState.events` the append-only `JobEvent` table
for this job).  Timestamps are abstracted to "has been set" flags, since the
code only ever assigns `now()` and never inspects the value;
`RunState.cd_writes` instruments how many times `completion_date` was
assigned.  The `DEBUG`-only diagnostics block at the end of the `finally`
clause is purely observational (logging) and is not modelled.
-/

namespace Automoss

/-- Job statuses (`INQUEUE_STATUS`, `UPLOADING_STATUS`, `PROCESSING_STATUS`,
`PARSING_STATUS`, `COMPLETED_STATUS`, `FAILED_STATUS` from settings). -/
inductive JobStatus
  | inqueue
  | uploading
  | processing
  | parsing
  | completed
  | failed
deriving DecidableEq, Repr

/-- JobEvent kinds (`INQUEUE_EVENT`, ..., `RETRY_EVENT`, `ERROR_EVENT`). -/
inductive EventType
  | inqueue
  | uploading
  | processing
  | parsing
  | completed
  | failed
  | retry
  | error
deriving DecidableEq, Repr

/-- Load classification returned by `Pinger.determine_load`. -/
inductive LoadStatus
  | normal
  | under_load
  | down
deriving DecidableEq, Repr

/-- One row of the append-only `JobEvent` table (timestamp implicit:
events are kept in creation order in `RunState.events`). -/
structure Event where
  type : EventType
  message : String
deriving DecidableEq, Repr

/-- The `Job` row fields the loop reads or writes.  Dates are abstracted to
"has been assigned" flags. -/
structure JobRec where
  job_id : Nat
  status : JobStatus
  start_date : Bool
  completion_date : Bool
deriving DecidableEq, Repr

/-- A `Submission` row: belongs to one job, carries the identifier the MOSS
service echoes back in results. -/
structure Submission where
  job : Nat
  submission_id : String
deriving DecidableEq, Repr

/-- One raw match entry of a parsed MOSS report (`moss.Result.matches`
element: `name_1`, `name_2`, two percentages, line count, line detail). -/
structure MossMatch where
  name_1 : String
  name_2 : String
  percentage_1 : Nat
  percentage_2 : Nat
  lines_matched : Nat
  line_matches : String
deriving DecidableEq, Repr

/-- The ephemeral parsed report returned by `MOSS.generate_report`. -/
structure MossReport where
  url : String
  matchList : List MossMatch
deriving DecidableEq, Repr

/-- A persisted `Match` row (`results.models.Match`), created from a
`MossMatch` whose both names resolved to submissions of the job. -/
structure MatchRec where
  first_submission : Submission
  second_submission : Submission
  first_percentage : Nat
  second_percentage : Nat
  lines_matched : Nat
  line_matches : String
deriving DecidableEq, Repr

/-- The exception taxonomy caught by the attempt loop:
`RecoverableMossException` / `socket.error` (one `except` arm),
`EmptyResponse`, `FatalMossException`, and the catch-all `Exception`. -/
inductive MossError
  | recoverable (msg : String)
  | emptyResponse
  | fatal (msg : String)
  | unclassified (msg : String)
deriving DecidableEq, Repr

/-- Python `str(e)` for a caught exception, used in the RETRY message. -/
def MossError.str : MossError → String
  | .recoverable m => m
  | .emptyResponse => "Empty response from MOSS"
  | .fatal m => m
  | .unclassified m => m

/-- Observable behaviour of one `MOSS.generate_url` call: how many of the
four upload/processing hooks fire (in their fixed order) before the call
either raises or returns a url. -/
structure GenUrlBehavior where
  callbacks : Nat
  outcome : Except MossError String

/-- Observable behaviour of the external service during one attempt:
the `generate_url` call, the `generate_report` call, and what
`Pinger.determine_load` would report if consulted. -/
structure AttemptBehavior where
  gen : GenUrlBehavior
  report : Except MossError MossReport
  load : LoadStatus
  ping : Nat
  average_ping : Nat

/-- Faults injectable into the finalization block, to model an ORM create
raising inside the `try ... finally` (C-style: the terminal
FAILED/COMPLETED `JobEvent.objects.create`, or the result-materialization
creates). -/
inductive FinalizeFault
  | ok
  | terminalEventFails
  | materializeFails
deriving DecidableEq, Repr

/-- The environment of one run: directory layout, retry schedule (the pairs
the `retry` generator yields), per-attempt service behaviour, the
`Submission` table (across all jobs), and the finalization fault switch. -/
structure Env where
  submission_types : List String
  dirs : List (String × List Nat)
  schedule : List (Nat × Nat)
  behaviors : Nat → AttemptBehavior
  submissions : List Submission
  fault : FinalizeFault

/-- Mutable state threaded through a run: the in-memory job row, the last
saved snapshot, the events created so far, the loop locals (`url`,
`result`, `num_attempts`), plus instrumentation counters (network calls,
total time slept, number of `completion_date` assignments). -/
structure RunState where
  job : JobRec
  saved : JobRec
  events : List Event
  url : Option String
  result : Option MossReport
  num_attempts : Nat
  net_calls : Nat
  total_sleep : Nat
  cd_writes : Nat

/-- Initial state: the job row as fetched, nothing created yet. -/
def initState (job0 : JobRec) : RunState :=
  { job := job0, saved := job0, events := [], url := none, result := none,
    num_attempts := 0, net_calls := 0, total_sleep := 0, cd_writes := 0 }

/-- `JobEvent.objects.create(job=job, type=t, message=m)`. -/
def addEvent (st : RunState) (t : EventType) (m : String) : RunState :=
  { st with events := st.events ++ [{ type := t, message := m }] }

/-- `job.save()`: persist the current in-memory row. -/
def saveJob (st : RunState) : RunState :=
  { st with saved := st.job }

/-- Number of events of a given kind in a trail. -/
def countEvents (t : EventType) : List Event → Nat
  | [] => 0
  | e :: rest => (if e.type = t then 1 else 0) + countEvents t rest

/-- Settings constant naming the required submission category
(`FILES_NAME`); the other category is base/template files. -/
def FILES_NAME : String := "files"

/-- Association-list lookup used for the `paths` dict. -/
def assocFind (t : String) : List (String × List Nat) → Option (List Nat)
  | [] => none
  | (k, v) :: rest => if k = t then some v else assocFind t rest

/-- The `paths` dict built before the loop: for every submission type whose
directory exists, the non-empty files in it (files are abstracted to their
sizes; `os.path.getsize(p) > 0` keeps a file). -/
def buildPaths (env : Env) : List (String × List Nat) :=
  env.submission_types.filterMap fun t =>
    match assocFind t env.dirs with
    | none => none
    | some sizes => some (t, sizes.filter (fun s => s > 0))

/-- `paths.get(FILES_NAME)` coerced the way Python's truthiness test does:
a missing key and an empty list are both falsy. -/
def filesOf (env : Env) : List Nat :=
  (assocFind FILES_NAME (buildPaths env)).getD []

/-- Modelled from the spec: `is_valid_moss_url` lives in
`automoss/apps/moss/moss.py`, which is not among the sources; per §4.1 the
loop re-uploads only while "no valid service-session URL exists yet", and a
url obtained from the service is valid, so validity is modelled as the url
having been obtained. -/
def is_valid_moss_url : Option String → Bool
  | none => false
  | some _ => true

/-- The four hooks passed to `MOSS.generate_url`, in firing order:
`on_upload_start`, `on_upload_finish`, `on_processing_start` (which also
moves the job to PROCESSING and saves), `on_processing_finish`. -/
def hookAction : Nat → RunState → RunState
  | 0, st => addEvent st .uploading "Started uploading files to MOSS"
  | 1, st => addEvent st .uploading "Finished uploading"
  | 2, st =>
      let j := { st.job with status := JobStatus.processing }
      addEvent { st with job := j, saved := j } .processing
        "Started generating similarity report"
  | 3, st => addEvent st .processing "Finished processing"
  | _ + 4, st => st

/-- Fire the first `k` hooks in order (hooks beyond the fourth do not
exist). -/
def fireCallbacks : Nat → RunState → RunState
  | 0, st => st
  | k + 1, st => hookAction k (fireCallbacks k st)

/-- The first half of the `try:` block: while no valid url exists, move to
UPLOADING, save, and call `MOSS.generate_url` (a network call during which
the hooks fire); the call either raises or yields the session url. -/
def uploadPhase (b : AttemptBehavior) (st : RunState) : RunState × Option MossError :=
  if is_valid_moss_url st.url then (st, none)
  else
    let stU := saveJob { st with job := { st.job with status := JobStatus.uploading } }
    let stU := { stU with net_calls := stU.net_calls + 1 }
    let stU := fireCallbacks b.gen.callbacks stU
    match b.gen.outcome with
    | .error e => (stU, some e)
    | .ok u => ({ stU with url := some u }, none)

/-- The second half of the `try:` block: move to PARSING, save, emit the
parsing-start event, call `MOSS.generate_report`, and on success store the
result and emit the match-count event. -/
def parsePhase (b : AttemptBehavior) (st : RunState) : RunState × Option MossError :=
  let stP := saveJob { st with job := { st.job with status := JobStatus.parsing } }
  let stP := addEvent stP .parsing "Start parsing report"
  let stP := { stP with net_calls := stP.net_calls + 1 }
  match b.report with
  | .error e => (stP, some e)
  | .ok r =>
    let stR := { stP with result := some r }
    let stR := addEvent stR .parsing
      ("Result finished parsing: " ++ toString r.matchList.length ++ " matches detected.")
    (stR, none)

/-- The whole `try:` block body of one attempt.  Returns the state together
with the raised exception, if any. -/
def tryBody (b : AttemptBehavior) (st : RunState) : RunState × Option MossError :=
  match uploadPhase b st with
  | (st1, some e) => (st1, some e)
  | (st1, none) => parsePhase b st1

/-- What one loop iteration does next, after the `try`/`except` blocks. -/
inductive StepOutcome
  | success
  | abort
  | retryStep
deriving DecidableEq, Repr

/-- The `except` arms: recoverable/socket errors retry; `EmptyResponse`
consults the load prober (`NORMAL` breaks, otherwise retry); fatal and
unclassified errors break. -/
def handleError (b : AttemptBehavior) (e : MossError) (st : RunState) :
    RunState × StepOutcome :=
  match e with
  | .recoverable _ => (st, .retryStep)
  | .emptyResponse =>
      let stL := { st with net_calls := st.net_calls + 1 }
      match b.load with
      | .normal => (stL, .abort)
      | .under_load => (stL, .retryStep)
      | .down => (stL, .retryStep)
  | .fatal _ => (st, .abort)
  | .unclassified _ => (st, .abort)

/-- The message of a RETRY event: carries the attempt number, the error and
the computed wait. -/
def retryMsg (attempt : Nat) (e : MossError) (wait : Nat) : String :=
  "(Attempt " ++ toString attempt ++ ") Error: " ++ e.str ++
    " | Retrying in " ++ toString wait ++ " seconds"

/-- Dispatch on the `try:` body's outcome: no exception is a success; an
exception goes through the `except` arms, and a retry verdict emits the
RETRY event and sleeps `w` seconds. -/
def afterTry (b : AttemptBehavior) (a w : Nat) :
    RunState × Option MossError → RunState × StepOutcome
  | (st1, none) => (st1, .success)
  | (st1, some e) =>
    match handleError b e st1 with
    | (st2, .retryStep) =>
        let st3 := addEvent st2 .retry (retryMsg a e w)
        ({ st3 with total_sleep := st3.total_sleep + w }, .retryStep)
    | (st2, o) => (st2, o)

/-- One iteration of the attempt loop for schedule entry `(a, w)`:
record the attempt number, run the `try:` body, dispatch on the result. -/
def attemptStep (b : AttemptBehavior) (a w : Nat) (st : RunState) :
    RunState × StepOutcome :=
  afterTry b a w (tryBody b { st with num_attempts := a })

/-- The `for attempt, time_to_sleep in retry(...)` loop: run iterations
until the schedule is exhausted or an iteration breaks. -/
def attemptLoop (env : Env) : List (Nat × Nat) → RunState → RunState
  | [], st => st
  | (a, w) :: rest, st =>
    match attemptStep (env.behaviors a) a w st with
    | (st', .retryStep) => attemptLoop env rest st'
    | (st', _) => st'

/-- `Submission.objects.filter(job=job, submission_id=sid).first()`:
lookup scoped to the owning job. -/
def resolveSub (subs : List Submission) (jid : Nat) (sid : String) :
    Option Submission :=
  (subs.filter fun s => s.job == jid && s.submission_id == sid).head?

/-- The materialization loop over `result.matches`: a `Match` row is
created exactly when both names resolve. -/
def materialize (subs : List Submission) (jid : Nat) :
    List MossMatch → List MatchRec
  | [] => []
  | m :: rest =>
    match resolveSub subs jid m.name_1, resolveSub subs jid m.name_2 with
    | some f, some s =>
        { first_submission := f, second_submission := s,
          first_percentage := m.percentage_1,
          second_percentage := m.percentage_2,
          lines_matched := m.lines_matched,
          line_matches := m.line_matches } :: materialize subs jid rest
    | _, _ => materialize subs jid rest

/-- How a run of `process_job` ends: a Python return value, or an exception
escaping the finalization block. -/
inductive Outcome
  | ret (v : Option String)
  | raised
deriving DecidableEq, Repr

/-- Result of a whole run: final state, the `Match` rows created, and the
outcome. -/
structure FinalResult where
  st : RunState
  records : List MatchRec
  outcome : Outcome

/-- The finalization block after the loop: set `completion_date`, then in a
`try ... finally job.save()` either take the failure path (status FAILED,
FAILED event, return None) or the success path (create the result row, one
`Match` per resolving raw match, COMPLETED event, status COMPLETED, return
the url).  An injected fault makes the corresponding create raise; the
`finally` save still runs and the exception escapes. -/
def finalize (env : Env) (st : RunState) : FinalResult :=
  let stC := { st with job := { st.job with completion_date := true },
                       cd_writes := st.cd_writes + 1 }
  match st.result with
  | none =>
    let stF := { stC with job := { stC.job with status := JobStatus.failed } }
    if env.fault = .terminalEventFails then
      { st := saveJob stF, records := [], outcome := .raised }
    else
      let stF := addEvent stF .failed ""
      { st := saveJob stF, records := [], outcome := .ret none }
  | some r =>
    if env.fault = .materializeFails then
      { st := saveJob stC, records := [], outcome := .raised }
    else
      let records := materialize env.submissions stC.job.job_id r.matchList
      if env.fault = .terminalEventFails then
        { st := saveJob stC, records := records, outcome := .raised }
      else
        let stS := addEvent stC .completed ""
        let stS := { stS with job := { stS.job with status := JobStatus.completed } }
        { st := saveJob stS, records := records, outcome := .ret (some r.url) }

/-- The whole of `process_job(job_id)`: the QUEUED guard, `start_date`,
the `paths` scan, the no-files immediate failure (status FAILED, save, one
FAILED event, return None — note the code does not touch `completion_date`
on this path), the attempt loop, and the finalization. -/
def process_job (env : Env) (job0 : JobRec) : FinalResult :=
  if job0.status ≠ JobStatus.inqueue then
    { st := initState job0, records := [], outcome := .ret none }
  else if filesOf env = [] then
    { st := addEvent (saveJob { initState job0 with
        job := { job0 with start_date := true, status := JobStatus.failed } })
        .failed "No files supplied",
      records := [], outcome := .ret none }
  else
    finalize env (attemptLoop env env.schedule
      { initState job0 with job := { job0 with start_date := true } })

/-- Clamp a delay into `[lo, hi]`. -/
def clampDelay (lo hi d : Nat) : Nat := max lo (min hi d)

/-- Modelled from the spec: the backoff scheduler `retry` lives in
`automoss/apps/utils/core.py`, which is not among the sources.  Per §4.2 it
yields `(attemptNumber, waitSeconds)` pairs starting at attempt 1, the
first wait being zero when the instant-first flag is set; each subsequent
delay grows exponentially from the previous one by a jittered base (the
draw for each attempt is the oracle `base`), clamped into
`[minDelay, maxDelay]`; and it stops yielding once the cumulative wait
taken would exceed the total budget.  `fuel` bounds the recursion; the
yielded pairs and their budget bound are independent of it. -/
def scheduleAux (lo hi budget : Nat) (base : Nat → Nat) (firstInstant : Bool) :
    Nat → Nat → Nat → Nat → List (Nat × Nat)
  | 0, _, _, _ => []
  | fuel + 1, n, delay, elapsed =>
    let wait := if n = 1 ∧ firstInstant then 0 else delay
    if budget < elapsed + wait then []
    else (n, wait) ::
      scheduleAux lo hi budget base firstInstant fuel (n + 1)
        (clampDelay lo hi (delay * base n)) (elapsed + wait)

/-- Modelled from the spec: the full schedule the `retry` generator yields
for one run (see `scheduleAux`). -/
def retry (lo hi budget : Nat) (base : Nat → Nat) (firstInstant : Bool) :
    List (Nat × Nat) :=
  scheduleAux lo hi budget base firstInstant (budget + 2) 1 lo 0

/-- Sum of the waits of a schedule. -/
def sumWaits (l : List (Nat × Nat)) : Nat := (l.map Prod.snd).sum

/-! ### Concrete fixtures used to instantiate the theorems -/

/-- A freshly queued job row. -/
def jobQ : JobRec :=
  { job_id := 1, status := .inqueue, start_date := false, completion_date := false }

/-- A raw match between the two submissions of job 1. -/
def matchA : MossMatch :=
  { name_1 := "alice", name_2 := "bob", percentage_1 := 40,
    percentage_2 := 55, lines_matched := 12, line_matches := "1-10:3-12" }

/-- A parsed report with one raw match. -/
def reportA : MossReport :=
  { url := "http://moss.stanford.edu/results/123/456", matchList := [matchA] }

/-- A queued job row with the given identity and date flags. -/
def jobWith (jid : Nat) (sd cd : Bool) : JobRec :=
  { job_id := jid, status := .inqueue, start_date := sd, completion_date := cd }

/-- Environment of the two-transient-failures-then-success scenario: the
first two attempts drop the connection while creating the session (errors
`e1`, `e2`), the third generates url `u` and parses report `rep`. -/
def envTwoRetries (e1 e2 u : String) (w1 w2 w3 : Nat) (rep : MossReport)
    (subs : List Submission) : Env :=
  { submission_types := ["files"], dirs := [("files", [100])],
    schedule := [(1, w1), (2, w2), (3, w3)],
    behaviors := fun a =>
      if a = 1 then
        { gen := { callbacks := 0, outcome := .error (.recoverable e1) },
          report := .error (.recoverable e1), load := .normal,
          ping := 0, average_ping := 0 }
      else if a = 2 then
        { gen := { callbacks := 0, outcome := .error (.recoverable e2) },
          report := .error (.recoverable e2), load := .normal,
          ping := 0, average_ping := 0 }
      else
        { gen := { callbacks := 4, outcome := .ok u },
          report := .ok rep, load := .normal, ping := 0, average_ping := 0 },
    submissions := subs, fault := .ok }

/-- Environment of the fatal-error scenario: every attempt raises a
`FatalMossException` while creating the session. -/
def envFatalGen (msg : String) (w1 : Nat) (rest : List (Nat × Nat))
    (subs : List Submission) : Env :=
  { submission_types := ["files"], dirs := [("files", [100])],
    schedule := (1, w1) :: rest,
    behaviors := fun _ =>
      { gen := { callbacks := 0, outcome := .error (.fatal msg) },
        report := .error (.fatal msg), load := .normal,
        ping := 0, average_ping := 0 },
    submissions := subs, fault := .ok }

/-- The service succeeds: url generated (all four hooks fire), report parses. -/
def behaviorOk : AttemptBehavior :=
  { gen := { callbacks := 4, outcome := .ok "http://moss.stanford.edu/results/123/456" },
    report := .ok reportA, load := .normal, ping := 120, average_ping := 110 }

/-- The connection drops during upload (a `socket.error`). -/
def behaviorSocketErr : AttemptBehavior :=
  { gen := { callbacks := 0, outcome := .error (.recoverable "connection reset") },
    report := .error (.recoverable "connection reset"),
    load := .normal, ping := 120, average_ping := 110 }

/-- The service answers emptily during upload; the prober would report `l`. -/
def behaviorEmpty (l : LoadStatus) : AttemptBehavior :=
  { gen := { callbacks := 0, outcome := .error .emptyResponse },
    report := .error .emptyResponse, load := l, ping := 900, average_ping := 150 }

/-- A small `Submission` table: two submissions of job 1, one of job 2. -/
def subsA : List Submission :=
  [{ job := 1, submission_id := "alice" }, { job := 1, submission_id := "bob" },
   { job := 2, submission_id := "alice" }]

/-- A well-formed environment: one non-empty and one empty file in the
required category, a three-attempt schedule, a succeeding service. -/
def envBase : Env :=
  { submission_types := ["files", "base_files"],
    dirs := [("files", [100, 0]), ("base_files", [40])],
    schedule := [(1, 4), (2, 8), (3, 16)],
    behaviors := fun _ => behaviorOk,
    submissions := subsA, fault := .ok }

/-- Like `envBase` but the required category holds only an empty file. -/
def envNoFiles : Env :=
  { envBase with dirs := [("files", [0]), ("base_files", [40])] }

/-- Like `envBase` but the result-materialization create raises. -/
def envMatFail : Env :=
  { envBase with fault := .materializeFails }

/-- State after a first attempt whose upload call answered emptily under
load. -/
def stEmptyU : RunState :=
  (tryBody (behaviorEmpty .under_load) { initState jobQ with num_attempts := 1 }).1

/-- A state that has reached the finalization with a parsed report. -/
def stDone : RunState :=
  { initState jobQ with result := some reportA, job := { jobQ with status := .parsing } }

/-! ### Helper lemmas about the run state -/

/-- Counters an attempt's `try:` body never changes: time slept,
`completion_date` writes, and the number of ERROR and RETRY events. -/
def Counters (st st' : RunState) : Prop :=
  st'.total_sleep = st.total_sleep ∧
  st'.cd_writes = st.cd_writes ∧
  countEvents .error st'.events = countEvents .error st.events ∧
  countEvents .retry st'.events = countEvents .retry st.events

/-- Neither the in-memory nor the saved job row is COMPLETED. -/
def NoComp (st : RunState) : Prop :=
  st.job.status ≠ JobStatus.completed ∧ st.saved.status ≠ JobStatus.completed

theorem counters_rfl (st : RunState) : Counters st st :=
  ⟨rfl, rfl, rfl, rfl⟩

theorem counters_trans {a b c : RunState} (h₁ : Counters a b) (h₂ : Counters b c) :
    Counters a c :=
  ⟨h₂.1.trans h₁.1, h₂.2.1.trans h₁.2.1, h₂.2.2.1.trans h₁.2.2.1,
   h₂.2.2.2.trans h₁.2.2.2⟩

theorem countEvents_append (t : EventType) (l₁ l₂ : List Event) :
    countEvents t (l₁ ++ l₂) = countEvents t l₁ + countEvents t l₂ := by
  induction l₁ with
  | nil => simp [countEvents]
  | cons e rest ih => simp [countEvents, ih]; omega

theorem countEvents_addEvent (st : RunState) (t t' : EventType) (m : String) :
    countEvents t (addEvent st t' m).events =
      countEvents t st.events + (if t' = t then 1 else 0) := by
  simp [addEvent, countEvents_append, countEvents]

theorem addEvent_counters (st : RunState) (t : EventType) (m : String)
    (h₁ : t ≠ .error) (h₂ : t ≠ .retry) : Counters st (addEvent st t m) := by
  refine ⟨rfl, rfl, ?_, ?_⟩ <;>
    simp [countEvents_addEvent, h₁, h₂]

theorem hookAction_counters (i : Nat) (st : RunState) :
    Counters st (hookAction i st) := by
  rcases i with _ | _ | _ | _ | i
  · exact addEvent_counters st .uploading _ (by decide) (by decide)
  · exact addEvent_counters st .uploading _ (by decide) (by decide)
  · refine ⟨rfl, rfl, ?_, ?_⟩ <;>
      simp [hookAction, countEvents_addEvent]
  · exact addEvent_counters st .processing _ (by decide) (by decide)
  · exact counters_rfl st

theorem hookAction_noComp (i : Nat) (st : RunState) (h : NoComp st) :
    NoComp (hookAction i st) := by
  rcases i with _ | _ | _ | _ | i <;>
    simp only [hookAction, addEvent, NoComp] at h ⊢ <;>
    first
      | exact h
      | exact ⟨by decide, by decide⟩

theorem hookAction_result (i : Nat) (st : RunState) :
    (hookAction i st).result = st.result := by
  rcases i with _ | _ | _ | _ | i <;> rfl

theorem fireCallbacks_counters (k : Nat) (st : RunState) :
    Counters st (fireCallbacks k st) := by
  induction k with
  | zero => exact counters_rfl st
  | succ k ih =>
      exact counters_trans ih (hookAction_counters k (fireCallbacks k st))

theorem fireCallbacks_noComp (k : Nat) (st : RunState) (h : NoComp st) :
    NoComp (fireCallbacks k st) := by
  induction k with
  | zero => exact h
  | succ k ih => exact hookAction_noComp k _ ih

theorem fireCallbacks_result (k : Nat) (st : RunState) :
    (fireCallbacks k st).result = st.result := by
  induction k with
  | zero => rfl
  | succ k ih => rw [fireCallbacks, hookAction_result, ih]

theorem uploadPhase_counters (b : AttemptBehavior) (st : RunState) :
    Counters st (uploadPhase b st).1 := by
  rw [uploadPhase]
  cases hv : is_valid_moss_url st.url
  · simp only [Bool.false_eq_true, if_false]
    rcases hg : b.gen.outcome with e | u <;> simp only [hg]
    · exact counters_trans ⟨rfl, rfl, rfl, rfl⟩ (fireCallbacks_counters _ _)
    · have h0 : Counters st
          ({ saveJob { st with job := { st.job with status := JobStatus.uploading } } with
              net_calls := st.net_calls + 1 }) := ⟨rfl, rfl, rfl, rfl⟩
      have h1 := counters_trans h0 (fireCallbacks_counters b.gen.callbacks _)
      exact counters_trans h1 ⟨rfl, rfl, rfl, rfl⟩
  · simp only [if_true]
    exact counters_rfl st

theorem uploadPhase_noComp (b : AttemptBehavior) (st : RunState) (h : NoComp st) :
    NoComp (uploadPhase b st).1 := by
  rw [uploadPhase]
  cases hv : is_valid_moss_url st.url
  · simp only [Bool.false_eq_true, if_false]
    have h' := fireCallbacks_noComp b.gen.callbacks
      { saveJob { st with job := { st.job with status := JobStatus.uploading } } with
        net_calls := st.net_calls + 1 } ⟨by simp [saveJob], by simp [saveJob]⟩
    rcases hg : b.gen.outcome with e | u <;> simp only [hg]
    · exact h'
    · exact h'
  · simpa using h

theorem uploadPhase_result (b : AttemptBehavior) (st : RunState) :
    (uploadPhase b st).1.result = st.result := by
  rw [uploadPhase]
  cases hv : is_valid_moss_url st.url
  · simp only [Bool.false_eq_true, if_false]
    rcases hg : b.gen.outcome with e | u <;> simp only [hg] <;>
      simp [fireCallbacks_result, saveJob]
  · simp

theorem parsePhase_counters (b : AttemptBehavior) (st : RunState) :
    Counters st (parsePhase b st).1 := by
  rw [parsePhase]
  rcases hr : b.report with e | r <;> simp only [hr] <;>
    exact ⟨rfl, rfl, by simp [addEvent, saveJob, countEvents_append, countEvents],
      by simp [addEvent, saveJob, countEvents_append, countEvents]⟩

theorem parsePhase_noComp (b : AttemptBehavior) (st : RunState) :
    NoComp (parsePhase b st).1 := by
  rw [parsePhase]
  rcases hr : b.report with e | r <;> simp only [hr] <;>
    exact ⟨by simp [addEvent, saveJob], by simp [addEvent, saveJob]⟩

theorem parsePhase_err_result (b : AttemptBehavior) (st st' : RunState)
    (e : MossError) (h : parsePhase b st = (st', some e)) :
    st'.result = st.result := by
  rw [parsePhase] at h
  rcases hr : b.report with e' | r <;> rw [hr] at h
  · simp only [Prod.mk.injEq] at h
    rw [← h.1]
    rfl
  · simp at h

theorem tryBody_counters (b : AttemptBehavior) (st : RunState) :
    Counters st (tryBody b st).1 := by
  rw [tryBody]
  rcases hu : uploadPhase b st with ⟨st1, e?⟩
  have h1 : Counters st st1 := by
    have := uploadPhase_counters b st
    rwa [hu] at this
  rcases e? with _ | e
  · exact counters_trans h1 (parsePhase_counters b st1)
  · exact h1

theorem tryBody_noComp (b : AttemptBehavior) (st : RunState) (h : NoComp st) :
    NoComp (tryBody b st).1 := by
  rw [tryBody]
  rcases hu : uploadPhase b st with ⟨st1, e?⟩
  have h1 : NoComp st1 := by
    have := uploadPhase_noComp b st h
    rwa [hu] at this
  rcases e? with _ | e
  · exact parsePhase_noComp b st1
  · exact h1

theorem tryBody_result_of_err (b : AttemptBehavior) (st st' : RunState)
    (e : MossError) (h : tryBody b st = (st', some e)) :
    st'.result = st.result := by
  rw [tryBody] at h
  rcases hu : uploadPhase b st with ⟨st1, e?⟩
  have h1 : st1.result = st.result := by
    have := uploadPhase_result b st
    rwa [hu] at this
  rw [hu] at h
  rcases e? with _ | e'
  · exact (parsePhase_err_result b st1 st' e h).trans h1
  · simp only [Prod.mk.injEq] at h
    rw [← h.1]; exact h1

theorem handleError_counters (b : AttemptBehavior) (e : MossError) (st : RunState) :
    Counters st (handleError b e st).1 := by
  rcases e with m | _ | m | m
  · exact counters_rfl st
  · rw [handleError]
    rcases hl : b.load <;> simp only [hl] <;> exact ⟨rfl, rfl, rfl, rfl⟩
  · exact counters_rfl st
  · exact counters_rfl st

theorem handleError_noComp (b : AttemptBehavior) (e : MossError) (st : RunState)
    (h : NoComp st) : NoComp (handleError b e st).1 := by
  rcases e with m | _ | m | m
  · exact h
  · rw [handleError]
    rcases hl : b.load <;> simp only [hl] <;> exact h
  · exact h
  · exact h

theorem handleError_result (b : AttemptBehavior) (e : MossError) (st : RunState) :
    (handleError b e st).1.result = st.result := by
  rcases e with m | _ | m | m
  · rfl
  · rw [handleError]
    rcases hl : b.load <;> simp only [hl]
  · rfl
  · rfl

theorem attemptStep_facts (b : AttemptBehavior) (a w : Nat) (st : RunState) :
    (attemptStep b a w st).1.cd_writes = st.cd_writes ∧
    countEvents .error (attemptStep b a w st).1.events = countEvents .error st.events ∧
    (attemptStep b a w st).1.total_sleep ≤ st.total_sleep + w ∧
    (NoComp st → NoComp (attemptStep b a w st).1) := by
  rw [attemptStep]
  rcases ht : tryBody b { st with num_attempts := a } with ⟨st1, e?⟩
  have hc : Counters { st with num_attempts := a } st1 := by
    have := tryBody_counters b { st with num_attempts := a }
    rwa [ht] at this
  have hn : NoComp st → NoComp st1 := fun h => by
    have := tryBody_noComp b { st with num_attempts := a } h
    rwa [ht] at this
  rcases e? with _ | e
  · rw [afterTry]
    exact ⟨hc.2.1, hc.2.2.1, le_trans (le_of_eq hc.1) (Nat.le_add_right _ _), hn⟩
  · rw [afterTry]
    rcases hh : handleError b e st1 with ⟨st2, o⟩
    have hc2 : Counters st1 st2 := by
      have := handleError_counters b e st1
      rwa [hh] at this
    have hn2 : NoComp st1 → NoComp st2 := fun h => by
      have := handleError_noComp b e st1 h
      rwa [hh] at this
    have hcc : Counters st st2 := counters_trans hc hc2
    rcases o with _ | _ | _
    · exact ⟨hcc.2.1, hcc.2.2.1, le_trans (le_of_eq hcc.1) (Nat.le_add_right _ _),
        fun h => hn2 (hn h)⟩
    · exact ⟨hcc.2.1, hcc.2.2.1, le_trans (le_of_eq hcc.1) (Nat.le_add_right _ _),
        fun h => hn2 (hn h)⟩
    · refine ⟨hcc.2.1, ?_, ?_, ?_⟩
      · simp only [addEvent]
        rw [countEvents_append]
        simpa [countEvents] using hcc.2.2.1
      · simp only [addEvent]
        exact le_of_eq (by rw [hcc.1])
      · intro h
        exact hn2 (hn h)

theorem attemptLoop_facts (env : Env) (sched : List (Nat × Nat)) :
    ∀ st : RunState,
      (attemptLoop env sched st).cd_writes = st.cd_writes ∧
      countEvents .error (attemptLoop env sched st).events =
        countEvents .error st.events ∧
      (attemptLoop env sched st).total_sleep ≤ st.total_sleep + sumWaits sched ∧
      (NoComp st → NoComp (attemptLoop env sched st)) := by
  induction sched with
  | nil => exact fun st => ⟨rfl, rfl, Nat.le_add_right _ _, id⟩
  | cons p rest ih =>
      rcases p with ⟨a, w⟩
      intro st
      rw [attemptLoop]
      obtain ⟨h1, h2, h3, h4⟩ := attemptStep_facts (env.behaviors a) a w st
      rcases hs : attemptStep (env.behaviors a) a w st with ⟨st', o⟩
      rw [hs] at h1 h2 h3 h4
      simp only at h1 h2 h3 h4
      have hsum : sumWaits ((a, w) :: rest) = w + sumWaits rest := by
        simp [sumWaits]
      rcases o with _ | _ | _
      · refine ⟨h1, h2, ?_, h4⟩
        show st'.total_sleep ≤ st.total_sleep + sumWaits ((a, w) :: rest)
        omega
      · refine ⟨h1, h2, ?_, h4⟩
        show st'.total_sleep ≤ st.total_sleep + sumWaits ((a, w) :: rest)
        omega
      · obtain ⟨g1, g2, g3, g4⟩ := ih st'
        refine ⟨g1.trans h1, g2.trans h2, ?_, fun h => g4 (h4 h)⟩
        show (attemptLoop env rest st').total_sleep ≤
          st.total_sleep + sumWaits ((a, w) :: rest)
        omega

theorem finalize_facts (env : Env) (st : RunState) :
    (finalize env st).st.cd_writes = st.cd_writes + 1 ∧
    (finalize env st).st.job.completion_date = true ∧
    (finalize env st).st.saved.completion_date = true ∧
    countEvents .error (finalize env st).st.events = countEvents .error st.events ∧
    (st.result = none → (finalize env st).st.job.status = .failed ∧
      (finalize env st).st.saved.status = .failed ∧
      (finalize env st).st.total_sleep = st.total_sleep) ∧
    (finalize env st).st.total_sleep = st.total_sleep := by
  rw [finalize]
  rcases hres : st.result with _ | r <;>
    by_cases hf : env.fault = FinalizeFault.terminalEventFails <;>
    by_cases hm : env.fault = FinalizeFault.materializeFails <;>
    simp [hf, hm, saveJob, addEvent, countEvents_append, countEvents]

theorem process_job_guard (env : Env) (job0 : JobRec)
    (h : job0.status ≠ JobStatus.inqueue) :
    process_job env job0 =
      { st := initState job0, records := [], outcome := .ret none } := by
  rw [process_job, if_pos h]

theorem process_job_nofiles (env : Env) (job0 : JobRec)
    (h : job0.status = JobStatus.inqueue) (hf : filesOf env = []) :
    process_job env job0 =
      { st := addEvent (saveJob { initState job0 with
          job := { job0 with start_date := true, status := JobStatus.failed } })
          .failed "No files supplied",
        records := [], outcome := .ret none } := by
  rw [process_job, if_neg (by simp [h]), if_pos hf]

theorem process_job_loop (env : Env) (job0 : JobRec)
    (h : job0.status = JobStatus.inqueue) (hf : ¬ filesOf env = []) :
    process_job env job0 =
      finalize env (attemptLoop env env.schedule
        { initState job0 with job := { job0 with start_date := true } }) := by
  rw [process_job, if_neg (by simp [h]), if_neg hf]

theorem scheduleAux_sum (lo hi budget : Nat) (base : Nat → Nat) (fi : Bool) :
    ∀ fuel n delay elapsed, elapsed ≤ budget →
      elapsed + sumWaits (scheduleAux lo hi budget base fi fuel n delay elapsed) ≤
        budget := by
  intro fuel
  induction fuel with
  | zero =>
      intro n delay elapsed h
      simpa [scheduleAux, sumWaits] using h
  | succ fuel ih =>
      intro n delay elapsed h
      simp only [scheduleAux]
      by_cases hb : budget < elapsed + (if n = 1 ∧ fi = true then 0 else delay)
      · simp only [if_pos hb]
        simpa [sumWaits] using h
      · simp only [if_neg hb]
        have hrec := ih (n + 1) (clampDelay lo hi (delay * base n))
          (elapsed + (if n = 1 ∧ fi = true then 0 else delay)) (by omega)
        simp only [sumWaits, List.map, List.sum_cons] at hrec ⊢
        omega

theorem sumWaits_append (l₁ l₂ : List (Nat × Nat)) :
    sumWaits (l₁ ++ l₂) = sumWaits l₁ + sumWaits l₂ := by
  simp [sumWaits]

theorem head_filter_of_some {α : Type} (p : α → Bool) (l : List α) (x : α)
    (h : (l.filter p).head? = some x) : p x = true := by
  induction l with
  | nil => simp at h
  | cons a l ih =>
      rw [List.filter_cons] at h
      by_cases hp : p a
      · simp only [hp, if_pos] at h
        simp only [List.head?_cons, Option.some.injEq] at h
        rwa [← h]
      · simp only [hp] at h
        simp only [Bool.false_eq_true, if_false] at h
        exact ih h

theorem head_filter_isSome_iff {α : Type} (p : α → Bool) (l : List α) :
    (l.filter p).head?.isSome = true ↔ ∃ x ∈ l, p x = true := by
  induction l with
  | nil => simp
  | cons a l ih =>
      rw [List.filter_cons]
      by_cases hp : p a
      · simp [hp]
      · simp only [hp, Bool.false_eq_true, if_false]
        rw [ih]
        constructor
        · rintro ⟨x, hx, hpx⟩
          exact ⟨x, List.mem_cons_of_mem a hx, hpx⟩
        · rintro ⟨x, hx, hpx⟩
          rcases List.mem_cons.1 hx with hxa | hxl
          · rw [hxa] at hpx
            exact absurd hpx hp
          · exact ⟨x, hxl, hpx⟩

/-! ### Claim theorems -/

/-- C1 (counterexample): the claim asserts the no-files immediate failure
"sets completion_date", but the code returns from that branch without ever
assigning it.  For the queued job `jobQ` and the environment `envNoFiles`
(whose required category holds only an empty file) the run does fail
immediately with the one "No files supplied" FAILED event, yet
`completion_date` is still unset (zero assignments) both in memory and in
the saved row. -/
theorem c1_counterexample :
    jobQ.status = .inqueue ∧ filesOf envNoFiles = [] ∧
    (process_job envNoFiles jobQ).st.job.status = .failed ∧
    (process_job envNoFiles jobQ).st.events =
      [{ type := .failed, message := "No files supplied" }] ∧
    (process_job envNoFiles jobQ).st.job.completion_date = false ∧
    (process_job envNoFiles jobQ).st.saved.completion_date = false ∧
    (process_job envNoFiles jobQ).st.cd_writes = 0 :=
  ⟨rfl, rfl, rfl, rfl, rfl, rfl, rfl⟩

/-- C1 (amended): for every job in QUEUED status whose required artifact
category has zero valid (non-empty) files, `run(jobId)` transitions the job
directly to FAILED (and saves it), creates exactly one FAILED `JobEvent`
with message "No files supplied", and returns `None` without contacting the
external comparison service; contrary to the claim it does not set
`completion_date`, which keeps its prior value. -/
theorem c1_no_files_immediate_failure (env : Env) (job0 : JobRec)
    (h : job0.status = .inqueue) (hf : filesOf env = []) :
    (process_job env job0).st.job.status = .failed ∧
    (process_job env job0).st.saved.status = .failed ∧
    (process_job env job0).st.events =
      [{ type := .failed, message := "No files supplied" }] ∧
    (process_job env job0).st.net_calls = 0 ∧
    (process_job env job0).outcome = .ret none ∧
    (process_job env job0).st.job.completion_date = job0.completion_date ∧
    (process_job env job0).st.cd_writes = 0 := by
  rw [process_job_nofiles env job0 h hf]
  exact ⟨rfl, rfl, rfl, rfl, rfl, rfl, rfl⟩

/-- C1 (witness): the amended statement at the concrete no-files input. -/
theorem c1_no_files_witness :
    (process_job envNoFiles jobQ).st.job.status = .failed ∧
    (process_job envNoFiles jobQ).st.saved.status = .failed ∧
    (process_job envNoFiles jobQ).st.events =
      [{ type := .failed, message := "No files supplied" }] ∧
    (process_job envNoFiles jobQ).st.net_calls = 0 ∧
    (process_job envNoFiles jobQ).outcome = .ret none ∧
    (process_job envNoFiles jobQ).st.job.completion_date = jobQ.completion_date ∧
    (process_job envNoFiles jobQ).st.cd_writes = 0 :=
  c1_no_files_immediate_failure envNoFiles jobQ rfl rfl

/-- C2 (counterexample): the claim counts the no-files immediate failure
among the terminal transitions on which `completion_date` is set; on that
path the run ends with status FAILED but `completion_date` was assigned
zero times and remains unset. -/
theorem c2_counterexample :
    jobQ.status = .inqueue ∧ filesOf envNoFiles = [] ∧
    (process_job envNoFiles jobQ).outcome = .ret none ∧
    (process_job envNoFiles jobQ).st.job.status = .failed ∧
    (process_job envNoFiles jobQ).st.cd_writes = 0 ∧
    ¬ (process_job envNoFiles jobQ).st.job.completion_date = true :=
  ⟨rfl, rfl, rfl, rfl, rfl, by decide⟩

/-- C2 (amended): for every run that passes the QUEUED guard and enters the
attempt loop, `completion_date` is assigned exactly once, on the terminal
finalization to COMPLETED or FAILED, and on no intermediate transition
(the attempt loop performs zero assignments); the no-files immediate
failure, contrary to the claim, does not set it. -/
theorem c2_completion_date_once (env : Env) (job0 : JobRec)
    (h : job0.status = .inqueue) (hf : ¬ filesOf env = []) :
    (process_job env job0).st.cd_writes = 1 ∧
    (process_job env job0).st.job.completion_date = true ∧
    (process_job env job0).st.saved.completion_date = true ∧
    (∀ sched st, (attemptLoop env sched st).cd_writes = st.cd_writes) := by
  rw [process_job_loop env job0 h hf]
  obtain ⟨l1, -, -, -⟩ := attemptLoop_facts env env.schedule
    { initState job0 with job := { job0 with start_date := true } }
  obtain ⟨f1, f2, f3, -, -, -⟩ := finalize_facts env (attemptLoop env env.schedule
    { initState job0 with job := { job0 with start_date := true } })
  refine ⟨?_, f2, f3, fun sched st => (attemptLoop_facts env sched st).1⟩
  rw [f1, l1]
  rfl

/-- C2 (witness): the amended statement at a concrete input that enters the
attempt loop, with the no-intermediate-write component instantiated at the
environment's own schedule. -/
theorem c2_completion_witness :
    (process_job envBase jobQ).st.cd_writes = 1 ∧
    (process_job envBase jobQ).st.job.completion_date = true ∧
    (process_job envBase jobQ).st.saved.completion_date = true ∧
    (attemptLoop envBase envBase.schedule (initState jobQ)).cd_writes =
      (initState jobQ).cd_writes := by
  have h := c2_completion_date_once envBase jobQ rfl (by decide)
  exact ⟨h.1, h.2.1, h.2.2.1, h.2.2.2 envBase.schedule (initState jobQ)⟩

/-- C3: for every job whose stored status is not QUEUED, `run(jobId)`
returns immediately with no side effects: the whole run result equals the
untouched initial state (job row and saved row both the fetched row, no
events created, no network calls) and Python's bare `return` yields
`None`. -/
theorem c3_guard_no_op (env : Env) (job0 : JobRec)
    (h : job0.status ≠ .inqueue) :
    process_job env job0 =
      { st := initState job0, records := [], outcome := .ret none } ∧
    (process_job env job0).st.job = job0 ∧
    (process_job env job0).st.saved = job0 ∧
    (process_job env job0).st.events = [] ∧
    (process_job env job0).st.net_calls = 0 ∧
    (process_job env job0).outcome = .ret none := by
  rw [process_job_guard env job0 h]
  exact ⟨rfl, rfl, rfl, rfl, rfl, rfl⟩

/-- C4: for every attempt whose `try:` body fails with an `EmptyResponse`:
if the load prober reports NORMAL the loop aborts with no RETRY event
(the event trail's RETRY count is unchanged) and the finalization then
marks the job FAILED; if it reports UNDER_LOAD or DOWN, a RETRY event whose
message carries the attempt number, the error and the computed wait is
created, the wait is taken, and the loop proceeds to the next scheduled
attempt. -/
theorem c4_empty_response_load_dispatch (b : AttemptBehavior) (a w : Nat)
    (st st' : RunState) (env : Env) (rest : List (Nat × Nat))
    (ht : tryBody b { st with num_attempts := a } = (st', some .emptyResponse)) :
    (b.load = .normal →
      attemptStep b a w st = ({ st' with net_calls := st'.net_calls + 1 }, .abort) ∧
      countEvents .retry st'.events = countEvents .retry st.events ∧
      (st.result = none →
        (finalize env { st' with net_calls := st'.net_calls + 1 }).st.job.status =
          JobStatus.failed)) ∧
    ((b.load = .under_load ∨ b.load = .down) →
      attemptStep b a w st =
        ({ st' with
            net_calls := st'.net_calls + 1,
            events := st'.events ++
              [{ type := .retry, message := retryMsg a .emptyResponse w }],
            total_sleep := st'.total_sleep + w }, .retryStep) ∧
      (env.behaviors a = b →
        attemptLoop env ((a, w) :: rest) st =
          attemptLoop env rest (attemptStep b a w st).1)) ∧
    (env.behaviors a = b → b.load = .normal →
      attemptLoop env ((a, w) :: rest) st =
        { st' with net_calls := st'.net_calls + 1 }) := by
  have hstep : attemptStep b a w st = afterTry b a w (st', some .emptyResponse) := by
    rw [attemptStep, ht]
  have hretry : countEvents .retry st'.events = countEvents .retry st.events := by
    have hc := tryBody_counters b { st with num_attempts := a }
    rw [ht] at hc
    exact hc.2.2.2
  have hres : st'.result = st.result :=
    tryBody_result_of_err b { st with num_attempts := a } st' .emptyResponse ht
  refine ⟨fun hl => ?_, ⟨fun hl => ?_, ?_⟩⟩
  · have hh : handleError b .emptyResponse st' =
        ({ st' with net_calls := st'.net_calls + 1 }, .abort) := by
      simp [handleError, hl]
    have habort : attemptStep b a w st =
        ({ st' with net_calls := st'.net_calls + 1 }, .abort) := by
      rw [hstep]
      simp only [afterTry]
      rw [hh]
    refine ⟨habort, hretry, fun hnone => ?_⟩
    have hres' : ({ st' with net_calls := st'.net_calls + 1 } : RunState).result = none := by
      show st'.result = none
      rw [hres, hnone]
    exact ((finalize_facts env _).2.2.2.2.1 hres').1
  · have hh : handleError b .emptyResponse st' =
        ({ st' with net_calls := st'.net_calls + 1 }, .retryStep) := by
      rcases hl with hl | hl <;> simp [handleError, hl]
    have hretry2 : attemptStep b a w st =
        ({ st' with
            net_calls := st'.net_calls + 1,
            events := st'.events ++
              [{ type := .retry, message := retryMsg a .emptyResponse w }],
            total_sleep := st'.total_sleep + w }, .retryStep) := by
      rw [hstep]
      simp only [afterTry]
      rw [hh]
      rfl
    refine ⟨hretry2, fun hb => ?_⟩
    simp only [attemptLoop]
    rw [hb, hretry2]
  · intro hb hl
    have hh : handleError b .emptyResponse st' =
        ({ st' with net_calls := st'.net_calls + 1 }, .abort) := by
      simp [handleError, hl]
    simp only [attemptLoop]
    rw [hb, hstep]
    simp only [afterTry]
    rw [hh]

/-- C4 (witness): the retry branch at a concrete first attempt whose upload
answered emptily while the service was under load: the step emits the
RETRY event carrying attempt 1, the error and the 4-second wait. -/
theorem c4_empty_response_witness :
    attemptStep (behaviorEmpty .under_load) 1 4 (initState jobQ) =
      ({ stEmptyU with
          net_calls := stEmptyU.net_calls + 1,
          events := stEmptyU.events ++
            [{ type := .retry, message := retryMsg 1 .emptyResponse 4 }],
          total_sleep := stEmptyU.total_sleep + 4 }, .retryStep) :=
  ((c4_empty_response_load_dispatch (behaviorEmpty .under_load) 1 4
      (initState jobQ) stEmptyU envBase [] rfl).2.1 (Or.inl rfl)).1

/-- C5 (counterexample): in the two-transient-failures-then-success
scenario the claim expects exactly one PARSING event; the code emits two
(the "Start parsing report" event and the match-count event), so the
concrete run below satisfies every other part of the scenario while its
PARSING count is 2, not 1. -/
theorem c5_counterexample :
    countEvents .retry (process_job (envTwoRetries "connection reset"
      "connection reset" "http://moss.stanford.edu/results/123/456"
      4 8 16 reportA subsA) jobQ).st.events = 2 ∧
    countEvents .completed (process_job (envTwoRetries "connection reset"
      "connection reset" "http://moss.stanford.edu/results/123/456"
      4 8 16 reportA subsA) jobQ).st.events = 1 ∧
    (process_job (envTwoRetries "connection reset" "connection reset"
      "http://moss.stanford.edu/results/123/456"
      4 8 16 reportA subsA) jobQ).st.job.status = .completed ∧
    (process_job (envTwoRetries "connection reset" "connection reset"
      "http://moss.stanford.edu/results/123/456"
      4 8 16 reportA subsA) jobQ).outcome = .ret (some reportA.url) ∧
    countEvents .parsing (process_job (envTwoRetries "connection reset"
      "connection reset" "http://moss.stanford.edu/results/123/456"
      4 8 16 reportA subsA) jobQ).st.events = 2 ∧
    ¬ countEvents .parsing (process_job (envTwoRetries "connection reset"
      "connection reset" "http://moss.stanford.edu/results/123/456"
      4 8 16 reportA subsA) jobQ).st.events = 1 :=
  ⟨rfl, rfl, rfl, rfl, rfl, by decide⟩

/-- C5 (amended): for a run in which the first two attempts fail with
transient transport errors during session creation and the third attempt
succeeds, the event trail contains exactly two RETRY events, exactly two
PARSING events (the parse-start event and the match-count event — not one
as claimed), and exactly one COMPLETED event; the final status is
COMPLETED and the service-session URL is returned. -/
theorem c5_two_retries_then_success (jid : Nat) (sd cd : Bool)
    (e1 e2 u : String) (w1 w2 w3 : Nat) (rep : MossReport)
    (subs : List Submission) :
    countEvents .retry (process_job (envTwoRetries e1 e2 u w1 w2 w3 rep subs)
      (jobWith jid sd cd)).st.events = 2 ∧
    countEvents .parsing (process_job (envTwoRetries e1 e2 u w1 w2 w3 rep subs)
      (jobWith jid sd cd)).st.events = 2 ∧
    countEvents .completed (process_job (envTwoRetries e1 e2 u w1 w2 w3 rep subs)
      (jobWith jid sd cd)).st.events = 1 ∧
    (process_job (envTwoRetries e1 e2 u w1 w2 w3 rep subs)
      (jobWith jid sd cd)).st.job.status = .completed ∧
    (process_job (envTwoRetries e1 e2 u w1 w2 w3 rep subs)
      (jobWith jid sd cd)).st.saved.status = .completed ∧
    (process_job (envTwoRetries e1 e2 u w1 w2 w3 rep subs)
      (jobWith jid sd cd)).outcome = .ret (some rep.url) ∧
    (process_job (envTwoRetries e1 e2 u w1 w2 w3 rep subs)
      (jobWith jid sd cd)).st.num_attempts = 3 :=
  ⟨rfl, rfl, rfl, rfl, rfl, rfl, rfl⟩

/-- C7: for a run whose first attempt fails with a fatal (non-recoverable)
service error, the loop exits immediately: zero RETRY events, exactly one
FAILED event, final status FAILED (in memory and saved), the attempt
counter stopped at 1, and `run(jobId)` returns `None` — independently of
how much schedule remained. -/
theorem c7_fatal_aborts_immediately (msg : String) (w1 : Nat)
    (rest : List (Nat × Nat)) (subs : List Submission) (jid : Nat)
    (sd cd : Bool) :
    countEvents .retry (process_job (envFatalGen msg w1 rest subs)
      (jobWith jid sd cd)).st.events = 0 ∧
    countEvents .failed (process_job (envFatalGen msg w1 rest subs)
      (jobWith jid sd cd)).st.events = 1 ∧
    (process_job (envFatalGen msg w1 rest subs)
      (jobWith jid sd cd)).st.job.status = .failed ∧
    (process_job (envFatalGen msg w1 rest subs)
      (jobWith jid sd cd)).st.saved.status = .failed ∧
    (process_job (envFatalGen msg w1 rest subs)
      (jobWith jid sd cd)).outcome = .ret none ∧
    (process_job (envFatalGen msg w1 rest subs)
      (jobWith jid sd cd)).st.num_attempts = 1 ∧
    (process_job (envFatalGen msg w1 rest subs)
      (jobWith jid sd cd)).st.job.completion_date = true :=
  ⟨rfl, rfl, rfl, rfl, rfl, rfl, rfl⟩

/-- C6: the result materializer.  On a successful run the created records
are exactly `materialize` over the report's raw matches; a record is
created for a raw match iff both of its referenced identifiers resolve
(head of the `Submission` table filtered by this job's id and that
identifier), a raw match with an unresolved identifier contributes
nothing, every resolution is scoped to the owning job, and each created
record carries both percentages, the matched-line count and the line
detail. -/
theorem c6_match_materialization (subs : List Submission) (jid : Nat)
    (sid : String) (m : MossMatch) (rest : List MossMatch)
    (f s : Submission) (env : Env) (st : RunState) (r : MossReport) :
    (env.fault = .ok → st.result = some r →
      (finalize env st).records =
        materialize env.submissions st.job.job_id r.matchList) ∧
    (resolveSub subs jid m.name_1 = some f →
      resolveSub subs jid m.name_2 = some s →
      materialize subs jid (m :: rest) =
        { first_submission := f, second_submission := s,
          first_percentage := m.percentage_1,
          second_percentage := m.percentage_2,
          lines_matched := m.lines_matched,
          line_matches := m.line_matches } :: materialize subs jid rest) ∧
    ((resolveSub subs jid m.name_1 = none ∨
      resolveSub subs jid m.name_2 = none) →
      materialize subs jid (m :: rest) = materialize subs jid rest) ∧
    (∀ s', resolveSub subs jid sid = some s' →
      s'.job = jid ∧ s'.submission_id = sid) ∧
    ((resolveSub subs jid sid).isSome = true ↔
      ∃ s' ∈ subs, s'.job = jid ∧ s'.submission_id = sid) := by
  refine ⟨fun hfault hres => ?_, fun h1 h2 => ?_, fun h => ?_,
    fun s' h => ?_, ?_⟩
  · rw [finalize]
    simp only [hres]
    rw [if_neg (by simp [hfault]), if_neg (by simp [hfault])]
  · simp only [materialize]
    rw [h1, h2]
  · rcases hf1 : resolveSub subs jid m.name_1 with _ | f1
    · simp only [materialize, hf1]
    · rcases h with h | h
      · rw [hf1] at h
        simp at h
      · simp only [materialize, hf1, h]
  · rw [resolveSub] at h
    have hp := head_filter_of_some
      (fun x => x.job == jid && x.submission_id == sid) subs s' h
    simp only [Bool.and_eq_true, beq_iff_eq] at hp
    exact hp
  · have hiff := head_filter_isSome_iff
      (fun x => x.job == jid && x.submission_id == sid) subs
    simp only [Bool.and_eq_true, beq_iff_eq] at hiff
    rw [resolveSub]
    exact hiff

/-- C6 (witness): on job 1's table `subsA`, the raw match `matchA` between
"alice" and "bob" resolves and yields the record carrying its percentages
and line data, and the finalization of a successful run materializes
exactly those records. -/
theorem c6_match_witness :
    (finalize envBase stDone).records =
      materialize envBase.submissions stDone.job.job_id reportA.matchList ∧
    materialize subsA 1 (matchA :: []) =
      { first_submission := { job := 1, submission_id := "alice" },
        second_submission := { job := 1, submission_id := "bob" },
        first_percentage := matchA.percentage_1,
        second_percentage := matchA.percentage_2,
        lines_matched := matchA.lines_matched,
        line_matches := matchA.line_matches } :: materialize subsA 1 [] := by
  have h := c6_match_materialization subsA 1 "alice" matchA []
    { job := 1, submission_id := "alice" } { job := 1, submission_id := "bob" }
    envBase stDone reportA
  exact ⟨h.1 rfl rfl, h.2.1 rfl rfl⟩

/-- C8 (modelled from the spec, `retry` not among the sources): the
cumulative wait of the schedule the backoff generator yields never exceeds
the configured total-duration budget; every already-yielded prefix plus
the next wait also fits the budget (the generator stops rather than
exceed it); and consequently the total time a run of `process_job` sleeps
is bounded by the budget whenever its schedule comes from the generator —
which also makes the attempt loop terminate, the schedule being a finite
list. -/
theorem c8_backoff_budget (lo hi budget : Nat) (base : Nat → Nat) (fi : Bool) :
    sumWaits (retry lo hi budget base fi) ≤ budget ∧
    (∀ l₁ p l₂, retry lo hi budget base fi = l₁ ++ p :: l₂ →
      sumWaits l₁ + p.2 ≤ budget) ∧
    (∀ env job0, env.schedule = retry lo hi budget base fi →
      (process_job env job0).st.total_sleep ≤ budget) := by
  have hsum : sumWaits (retry lo hi budget base fi) ≤ budget := by
    have := scheduleAux_sum lo hi budget base fi (budget + 2) 1 lo 0
      (Nat.zero_le _)
    simpa [retry] using this
  refine ⟨hsum, fun l₁ p l₂ hsplit => ?_, fun env job0 hsched => ?_⟩
  · have hle : sumWaits (l₁ ++ p :: l₂) ≤ budget := hsplit ▸ hsum
    rw [sumWaits_append] at hle
    have hcons : sumWaits (p :: l₂) = p.2 + sumWaits l₂ := by simp [sumWaits]
    omega
  · by_cases h : job0.status = JobStatus.inqueue
    · by_cases hf : filesOf env = []
      · rw [process_job_nofiles env job0 h hf]
        exact Nat.zero_le budget
      · rw [process_job_loop env job0 h hf]
        obtain ⟨-, -, l3, -⟩ := attemptLoop_facts env env.schedule
          { initState job0 with job := { job0 with start_date := true } }
        obtain ⟨-, -, -, -, -, f6⟩ := finalize_facts env (attemptLoop env
          env.schedule { initState job0 with job := { job0 with start_date := true } })
        have h0 : ({ initState job0 with
            job := { job0 with start_date := true } } : RunState).total_sleep = 0 := rfl
        rw [f6, hsched]
        rw [hsched] at l3
        omega
    · rw [process_job_guard env job0 h]
      exact Nat.zero_le budget

/-- C8 (witness): the budget bound at a concrete configuration (min 4 s,
max 64 s, 300 s budget, base 2, instant first attempt), both for the bare
schedule and for a run driven by it. -/
theorem c8_backoff_witness :
    sumWaits (retry 4 64 300 (fun _ => 2) true) ≤ 300 ∧
    (process_job { envBase with schedule := retry 4 64 300 (fun _ => 2) true }
      jobQ).st.total_sleep ≤ 300 := by
  have h := c8_backoff_budget 4 64 300 (fun _ => 2) true
  exact ⟨h.1, h.2.2 { envBase with schedule := retry 4 64 300 (fun _ => 2) true }
    jobQ rfl⟩

/-- C9: `run(jobId)` never creates a JobEvent of kind ERROR — the event
trail of every run, whatever the environment, contains zero ERROR events —
and the classifier handles an unclassified exception by aborting the loop
with the state untouched (the error goes only to the process logger). -/
theorem c9_no_error_events (env : Env) (job0 : JobRec) (b : AttemptBehavior)
    (m : String) (st : RunState) :
    countEvents .error (process_job env job0).st.events = 0 ∧
    handleError b (.unclassified m) st = (st, .abort) := by
  constructor
  · by_cases h : job0.status = JobStatus.inqueue
    · by_cases hf : filesOf env = []
      · rw [process_job_nofiles env job0 h hf]
        rfl
      · rw [process_job_loop env job0 h hf]
        obtain ⟨-, l2, -, -⟩ := attemptLoop_facts env env.schedule
          { initState job0 with job := { job0 with start_date := true } }
        obtain ⟨-, -, -, f4, -, -⟩ := finalize_facts env (attemptLoop env
          env.schedule { initState job0 with job := { job0 with start_date := true } })
        rw [f4, l2]
        rfl
    · rw [process_job_guard env job0 h]
      rfl
  · rfl

/-- C10: the finalization's `job.save()` sits in a `finally` block, so
after any finalization the saved row has `completion_date` set, whatever
fault is injected; when the result-materialization create raises on a
successful result, the finalization re-raises, creates no records, and the
saved status is whatever was last assigned to the in-memory row — and for
a whole run with that fault the persisted status is never COMPLETED. -/
theorem c10_finally_persists (env : Env) (st : RunState) (r : MossReport)
    (env2 : Env) (job0 : JobRec) :
    (finalize env st).st.saved.completion_date = true ∧
    (env.fault = .materializeFails → st.result = some r →
      (finalize env st).outcome = .raised ∧
      (finalize env st).st.saved.status = st.job.status ∧
      (finalize env st).records = []) ∧
    (job0.status = .inqueue → ¬ filesOf env2 = [] →
      (process_job env2 job0).st.saved.completion_date = true ∧
      (env2.fault = .materializeFails →
        (process_job env2 job0).st.saved.status ≠ .completed)) := by
  refine ⟨(finalize_facts env st).2.2.1, fun hm hres => ?_, fun h hf => ?_⟩
  · rw [finalize]
    simp only [hres]
    rw [if_pos hm]
    exact ⟨rfl, rfl, rfl⟩
  · rw [process_job_loop env2 job0 h hf]
    refine ⟨(finalize_facts env2 _).2.2.1, fun hm2 => ?_⟩
    have hnc : NoComp (attemptLoop env2 env2.schedule
        { initState job0 with job := { job0 with start_date := true } }) := by
      apply (attemptLoop_facts env2 env2.schedule
        { initState job0 with job := { job0 with start_date := true } }).2.2.2
      constructor
      · show job0.status ≠ JobStatus.completed
        rw [h]
        exact fun hcon => by cases hcon
      · show job0.status ≠ JobStatus.completed
        rw [h]
        exact fun hcon => by cases hcon
    rcases hres2 : (attemptLoop env2 env2.schedule
        { initState job0 with job := { job0 with start_date := true } }).result
      with _ | r2
    · have hfail := ((finalize_facts env2 (attemptLoop env2 env2.schedule
        { initState job0 with job := { job0 with start_date := true } })).2.2.2.2.1
          hres2).2.1
      rw [hfail]
      exact fun hcon => by cases hcon
    · rw [finalize]
      simp only [hres2]
      rw [if_pos hm2]
      show (attemptLoop env2 env2.schedule
        { initState job0 with job := { job0 with start_date := true } }).job.status ≠
          JobStatus.completed
      exact hnc.1

/-- C10 (witness): a whole run with the materialization fault persists a
completed `completion_date` but never the COMPLETED status. -/
theorem c10_finally_witness :
    (process_job envMatFail jobQ).st.saved.completion_date = true ∧
    (process_job envMatFail jobQ).st.saved.status ≠ .completed := by
  have h := (c10_finally_persists envMatFail stDone reportA envMatFail jobQ).2.2
    rfl (by decide)
  exact ⟨h.1, h.2 rfl⟩

/-- C3 (witness): the guard at a job already COMPLETED. -/
theorem c3_guard_witness :
    process_job envBase { jobQ with status := JobStatus.completed } =
      { st := initState { jobQ with status := JobStatus.completed },
        records := [], outcome := .ret none } ∧
    (process_job envBase { jobQ with status := JobStatus.completed }).st.job =
      { jobQ with status := JobStatus.completed } ∧
    (process_job envBase { jobQ with status := JobStatus.completed }).st.saved =
      { jobQ with status := JobStatus.completed } ∧
    (process_job envBase { jobQ with status := JobStatus.completed }).st.events = [] ∧
    (process_job envBase { jobQ with status := JobStatus.completed }).st.net_calls = 0 ∧
    (process_job envBase { jobQ with status := JobStatus.completed }).outcome =
      .ret none :=
  c3_guard_no_op envBase { jobQ with status := JobStatus.completed } (by decide)

end Automoss
